import Mathlib

/-!
# Verification of the rslib configuration composition engine

A shallow embedding of `packages/core/src/config.ts`: the per-format
configuration fragments, the layered merge that produces the final
per-environment Rsbuild configuration, the auto-external dependency
exclusion rules, and the environment-key assembly of `initRsbuild`.

JavaScript values are modelled by the `JVal` tree; opaque runtime values
(callback functions, external plugin instances) are represented by the
`JVal.extv` constructor tagged with their role, and `RegExp` objects by
`JVal.regexp` carrying their source text.  Fallible code returns
`Except String`.  Helpers of the repository that live outside the provided
sources (the merge engine, `getDefaultExtension`, `omitDeep`,
`calcLongestCommonPath`) are modelled from the specification and marked as
such in their doc comments.
-/

set_option maxHeartbeats 1000000

namespace Rslib

/-- A JavaScript-like value: the shape of Rsbuild/Rslib configuration
objects.  `undef` is JavaScript `undefined`, `extv` is an opaque runtime
value (function or plugin instance) tagged with its role in the source,
`regexp` is a `RegExp` object identified by its source text, and `obj`
is an ordered string-keyed object. -/
inductive JVal where
  | undef
  | null
  | bool (b : Bool)
  | num (n : Int)
  | str (s : String)
  | regexp (source : String)
  | extv (tag : String) (args : List JVal)
  | arr (elems : List JVal)
  | obj (fields : List (String × JVal))

/-- JavaScript truthiness of a value. -/
def jsTruthy : JVal → Bool
  | .undef => false
  | .null => false
  | .bool b => b
  | .num n => !(n == 0)
  | .str s => !(s == "")
  | _ => true

/-- JavaScript `== null` check (matches `undefined` and `null`),
used by the `??` and `??=` operators. -/
def jsNullish : JVal → Bool
  | .undef => true
  | .null => true
  | _ => false

/-- Property access `v[k]`: `none` models `undefined` coming from a
missing key or a non-object receiver (optional chaining). -/
def jget : JVal → String → Option JVal
  | .obj fields, k => fields.lookup k
  | _, _ => none

/-- Two-step optional-chained access `v?.k1?.k2`. -/
def jget2 (v : JVal) (k1 k2 : String) : Option JVal :=
  match jget v k1 with
  | some w => jget w k2
  | none => none

/-- Three-step optional-chained access `v?.k1?.k2?.k3`. -/
def jget3 (v : JVal) (k1 k2 k3 : String) : Option JVal :=
  match jget2 v k1 k2 with
  | some w => jget w k3
  | none => none

/-- JavaScript property assignment on an association list: replaces the
value of an existing key in place, otherwise appends the key. -/
def setKeyReplace {α : Type} : List (String × α) → String → α → List (String × α)
  | [], k, v => [(k, v)]
  | (k', w) :: t, k, v =>
    if k' == k then (k', v) :: t else (k', w) :: setKeyReplace t k v

/-- JavaScript object spread `{ ...a, ...b }` (shallow, later keys win). -/
def objSpread (a b : List (String × JVal)) : List (String × JVal) :=
  b.foldl (fun acc p => setKeyReplace acc p.1 p.2) a

/-- Property assignment `v.k = x` (no-op on non-objects). -/
def jsetKey : JVal → String → JVal → JVal
  | .obj fields, k, v => .obj (setKeyReplace fields k v)
  | x, _, _ => x

/-- Property deletion `delete v.k` (no-op on non-objects). -/
def jdeleteKey : JVal → String → JVal
  | .obj fields, k => .obj (fields.filter (fun p => !(p.1 == k)))
  | x, _ => x

mutual
/-- Modelled from the spec: the merge engine consumed as
`mergeRsbuildConfig` from `@rsbuild/core` (outside this repository).
§4.7: "Merge is a deep, associative, last-wins object merge"; the merge
is order-stable, keeping the left operand's key order and appending new
keys of the right operand. -/
def jmerge : JVal → JVal → JVal
  | .obj a, .obj b => .obj (jmergeInto a b)
  | _, b => b
termination_by a b => (sizeOf b, sizeOf a)

/-- Folds the fields of the higher-priority object into the lower-priority
field list, one key at a time. -/
def jmergeInto : List (String × JVal) → List (String × JVal) → List (String × JVal)
  | a, [] => a
  | a, (k, v) :: rest => jmergeInto (jmergeKey a k v) rest
termination_by a b => (sizeOf b, sizeOf a)

/-- Merges one higher-priority binding `k ↦ v` into a field list:
recursively merged into an existing binding of `k`, else appended. -/
def jmergeKey : List (String × JVal) → String → JVal → List (String × JVal)
  | [], k, v => [(k, v)]
  | (k', w) :: t, k, v =>
    if k' == k then (k', jmerge w v) :: t else (k', w) :: jmergeKey t k v
termination_by l _ v => (sizeOf v, sizeOf l)
end

/-- `mergeRsbuildConfig(c1, c2, …)`: pairwise left fold of the binary
merge over the argument list, low precedence first. -/
def mergeRsbuildConfigs : List JVal → JVal
  | [] => .obj []
  | x :: xs => xs.foldl jmerge x

mutual
/-- Modelled from the spec: the `omitDeep` helper (`utils/helper`, not
under `src/`) removes the named keys from an object at every depth,
keeping everything else intact. -/
def omitDeep : JVal → List String → JVal
  | .obj fields, ks => .obj (omitDeepFields fields ks)
  | v, _ => v
termination_by v _ => sizeOf v

/-- Field-list worker of `omitDeep`. -/
def omitDeepFields : List (String × JVal) → List String → List (String × JVal)
  | [], _ => []
  | (k, v) :: t, ks =>
    if ks.contains k then omitDeepFields t ks
    else (k, omitDeep v ks) :: omitDeepFields t ks
termination_by l _ => sizeOf l
end

/-- The relevant read-only snapshot of the nearest `package.json`
(`PkgJson` in `types.ts`): module `type` and the three dependency maps,
each an ordered name → version-range association list. -/
structure PkgJson where
  ptype : Option String := none
  dependencies : Option (List (String × String)) := none
  peerDependencies : Option (List (String × String)) := none
  devDependencies : Option (List (String × String)) := none

/-- Strict-equality test `o === 's'` of an optional value against a
string literal. -/
def isStrVal (o : Option JVal) (s : String) : Bool :=
  match o with
  | some (.str t) => t == s
  | _ => false

/-- Rough JavaScript string interpolation of a value, used only to build
error messages (`Unsupported format: ${format}` and friends). -/
def jsDisplay : Option JVal → String
  | none => "undefined"
  | some .undef => "undefined"
  | some .null => "null"
  | some (.bool b) => cond b "true" "false"
  | some (.num n) => toString n
  | some (.str s) => s
  | some (.regexp src) => "/" ++ src ++ "/"
  | some (.extv _ _) => "[function]"
  | some (.arr _) => "[array]"
  | some (.obj _) => "[object Object]"

/-- A JavaScript destructuring default `{ x = d } = …`: the default
applies when the property is missing or explicitly `undefined`. -/
def destrDefault (o : Option JVal) (d : JVal) : JVal :=
  match o with
  | none => d
  | some .undef => d
  | some v => v

/-- `createInternalRsbuildConfig` (config.ts): the built-in baseline
Rsbuild configuration, lowest merge precedence. -/
def internalRsbuildConfig : JVal := .obj [
  ("mode", .str "production"),
  ("dev", .obj [("progressBar", .bool false)]),
  ("tools", .obj [
    ("htmlPlugin", .bool false),
    ("rspack", .obj [
      ("optimization", .obj [("moduleIds", .str "named")]),
      ("experiments", .obj [
        ("rspackFuture", .obj [
          ("bundlerInfo", .obj [("force", .bool false)])])]),
      ("resolve", .obj [
        ("extensionAlias", .obj [
          (".js", .arr [.str ".ts", .str ".tsx", .str ".js", .str ".jsx"]),
          (".jsx", .arr [.str ".tsx", .str ".jsx"]),
          (".mjs", .arr [.str ".mts", .str ".mjs"]),
          (".cjs", .arr [.str ".cts", .str ".cjs"])])])])]),
  ("output", .obj [
    ("filenameHash", .bool false),
    ("minify", .obj [
      ("js", .bool true),
      ("css", .bool false),
      ("jsOptions", .obj [
        ("minimizerOptions", .obj [
          ("mangle", .bool false),
          ("minify", .bool false),
          ("compress", .obj [
            ("defaults", .bool false),
            ("unused", .bool true),
            ("dead_code", .bool true),
            ("toplevel", .bool true)]),
          ("format", .obj [("comments", .str "all")])])])]),
    ("distPath", .obj [("js", .str "./")])])]

/-- `composeFormatConfig` (config.ts): engine output-module settings per
format; an out-of-domain format value throws. -/
def composeFormatConfig (format : Option JVal) : Except String JVal :=
  match format with
  | some (.str "esm") => .ok (.obj [
      ("tools", .obj [
        ("rspack", .obj [
          ("output", .obj [
            ("module", .bool true),
            ("chunkFormat", .str "module"),
            ("library", .obj [("type", .str "modern-module")])]),
          ("module", .obj [
            ("parser", .obj [
              ("javascript", .obj [("importMeta", .bool false)])])]),
          ("optimization", .obj [("concatenateModules", .bool true)]),
          ("experiments", .obj [("outputModule", .bool true)])])])])
  | some (.str "cjs") => .ok (.obj [
      ("tools", .obj [
        ("rspack", .obj [
          ("output", .obj [
            ("iife", .bool false),
            ("chunkFormat", .str "commonjs"),
            ("library", .obj [("type", .str "commonjs")])])])])])
  | some (.str "umd") => .ok (.obj [
      ("tools", .obj [
        ("rspack", .obj [
          ("output", .obj [
            ("library", .obj [("type", .str "umd")])])])])])
  | f => .error ("Unsupported format: " ++ jsDisplay f)

/-- `composeExternalsConfig` (config.ts): the per-format externalization
strategy wrapping the user's raw externals.  In ESM format a warning
callback is prepended (opaque `extv`) and falsy array entries are
filtered out; in CJS/UMD formats the externals are passed through when
truthy. -/
def composeExternalsConfig (format : Option JVal) (externals : Option JVal) :
    Except String JVal :=
  match format with
  | some (.str "esm") =>
    let userExternals : List JVal :=
      match externals with
      | some (.arr xs) => xs
      | some v => [v]
      | none => [.undef]
    .ok (.obj [
      ("output", .obj [
        ("externals",
          .arr ((.extv "esmModuleImportWarnCallback" [] :: userExternals).filter
            jsTruthy))]),
      ("tools", .obj [
        ("rspack", .obj [("externalsType", .str "module-import")])])])
  | some (.str "cjs") => .ok (.obj [
      ("output",
        match externals with
        | some e => if jsTruthy e then .obj [("externals", e)] else .obj []
        | none => .obj []),
      ("tools", .obj [
        ("rspack", .obj [("externalsType", .str "commonjs")])])])
  | some (.str "umd") => .ok (.obj [
      ("output",
        match externals with
        | some e => if jsTruthy e then .obj [("externals", e)] else .obj []
        | none => .obj []),
      ("tools", .obj [
        ("rspack", .obj [("externalsType", .str "umd")])])])
  | f => .error ("Unsupported format: " ++ jsDisplay f)

/-- Modelled from the spec: `getDefaultExtension` (`utils/extension`, not
under `src/`), the §4.4 decision table mapping (format, package `type`,
`autoExtension`) to the JS and declaration-file extension pair. -/
def getDefaultExtension (format : Option JVal) (pkgType : Option String)
    (autoExtension : Bool) : String × String :=
  if !autoExtension then (".js", ".d.ts")
  else
    match format with
    | some (.str "esm") =>
      if pkgType == some "commonjs" then (".mjs", ".d.mts") else (".js", ".d.ts")
    | some (.str "cjs") =>
      if pkgType == some "module" then (".cjs", ".d.cts") else (".js", ".d.ts")
    | _ => (".js", ".d.ts")

/-- `composeAutoExtensionConfig` (config.ts): computes the default
`output.filename.js` from the extension policy and spreads the user's
explicit filename rules over it (user keys win). -/
def composeAutoExtensionConfig (user : JVal) (autoExtension : JVal)
    (pkgJson : Option PkgJson) : JVal × String × String :=
  let ext := getDefaultExtension (jget user "format")
    (pkgJson.bind PkgJson.ptype) (jsTruthy autoExtension)
  let userFilename : List (String × JVal) :=
    match jget2 user "output" "filename" with
    | some (.obj fs) => fs
    | _ => []
  (.obj [
    ("output", .obj [
      ("filename", .obj
        (objSpread [("js", .str ("[name]" ++ ext.1))] userFilename))])],
   ext.1, ext.2)

/-- `composeSyntaxConfig` (config.ts): engine target and browserslist
settings from the optional `syntax` descriptor, with per-target fallback
defaults.  The rspack mutation callbacks are opaque `extv` values, and
`transformSyntaxToBrowserslist` (`utils/syntax`, outside `src/`) is an
opaque external computation on the descriptor. -/
def composeSyntaxConfig (syn : Option JVal) (target : Option JVal) : JVal :=
  let webVersions : List JVal := [
    .str "last 1 Chrome versions",
    .str "last 1 Firefox versions",
    .str "last 1 Edge versions",
    .str "last 1 Safari versions",
    .str "last 1 ios_saf versions",
    .str "not dead"]
  let nodeVersions : List JVal := [.str "last 1 node versions"]
  if jsTruthy (syn.getD .undef) then
    .obj [
      ("tools", .obj [("rspack", .extv "rspackTargetEs5Fn" [])]),
      ("output", .obj [
        ("overrideBrowserslist",
          .extv "transformSyntaxToBrowserslist" [syn.getD .undef])])]
  else
    .obj [
      ("tools", .obj [("rspack", .extv "rspackTargetEs2022Fn" [])]),
      ("output", .obj [
        ("overrideBrowserslist",
          if isStrVal target "web" then .arr webVersions
          else if isStrVal target "node" then .arr nodeVersions
          else .arr (nodeVersions ++ webVersions))])]

/-- Longest common prefix of two segment lists. -/
def commonSegs : List String → List String → List String
  | a :: as, b :: bs => if a == b then a :: commonSegs as bs else []
  | _, _ => []

/-- Modelled from the spec: `calcLongestCommonPath` (`utils/helper`, not
under `src/`), §4.2 — split each path into segments, take the longest
common prefix of segments over all paths, and return `none` when no
common ancestor remains; a single-path input yields that path's parent
directory (§4.2, §8). -/
def calcLongestCommonPath (paths : List String) : Option String :=
  match paths with
  | [] => none
  | [p] =>
    let parent := (p.splitOn "/").dropLast
    if parent.isEmpty then none else some (String.intercalate "/" parent)
  | p :: rest =>
    let common := (rest.map (fun s => s.splitOn "/")).foldl commonSegs
      (p.splitOn "/")
    if common.isEmpty then none else some (String.intercalate "/" common)

/-- The character list before the last `'.'` of a name, or `none` when
the name has no dot: the worker for `path.parse` extension stripping. -/
def beforeLastDot : List Char → Option (List Char)
  | [] => none
  | c :: rest =>
    match beforeLastDot rest with
    | some p => some (c :: p)
    | none => if c = '.' then some [] else none

/-- `path.parse(base).name`: the basename with its last extension
stripped; a sole leading dot does not start an extension. -/
def stripExtBase (base : String) : String :=
  match beforeLastDot base.data with
  | some p => if p.isEmpty then base else ⟨p⟩
  | none => base

/-- `path.relative(outBase, file)` in the shape used here: drops the
`outBase` segment prefix from `file`. -/
def pathRelativeTo (base file : String) : String :=
  let bs := base.splitOn "/"
  let fs := file.splitOn "/"
  if bs.isPrefixOf fs then String.intercalate "/" (fs.drop bs.length) else file

/-- `path.join(dir, name)` over the parse of a relative path: the
relative path with the extension of its last segment stripped,
separators preserved. -/
def entryNameOf (rel : String) : String :=
  let segs := rel.splitOn "/"
  String.intercalate "/" (segs.dropLast ++ [stripExtBase (segs.getLastD "")])

/-- The bundleless entry-resolution loop of `composeEntryConfig`
(config.ts): per entry key, accept a glob string or array of glob
strings (anything else throws), expand the globs, throw when nothing
matched — the thrown message interpolates the empty match array —
and record each matched file under its outBase-relative,
extension-stripped name, last write winning. -/
def resolveEntriesLoop (globFn : List String → String → List String)
    (root : String) :
    List (String × JVal) → List (String × JVal) →
    Except String (List (String × JVal))
  | [], acc => .ok acc
  | (_, v) :: rest, acc =>
    match
      (match v with
       | .str s => .ok [s]
       | .arr xs => .ok (xs.filterMap (fun e =>
           match e with
           | .str s => some s
           | _ => none))
       | _ => .error "Entry can only be a string or an array of strings for now"
       : Except String (List String)) with
    | .error e => .error e
    | .ok patterns =>
      let resolvedEntryFiles := globFn patterns root
      if resolvedEntryFiles.isEmpty then
        .error ("Cannot find " ++ String.intercalate "," resolvedEntryFiles)
      else
        let lcp := calcLongestCommonPath resolvedEntryFiles
        let outBase := match lcp with | none => root | some p => p
        let acc' := resolvedEntryFiles.foldl (fun a file =>
          setKeyReplace a (entryNameOf (pathRelativeTo outBase file)) (.str file))
          acc
        resolveEntriesLoop globFn root rest acc'

/-- `composeEntryConfig` (config.ts): entries pass through untouched
unless `bundle` is exactly `false`, in which case globs are resolved to
a concrete entry map. -/
def composeEntryConfig (entries : Option JVal) (bundle : Option JVal)
    (root : String) (globFn : List String → String → List String) :
    Except String JVal :=
  if !(jsTruthy (entries.getD .undef)) then .ok (.obj [])
  else
    let e := entries.getD .undef
    if !(bundle matches some (.bool false)) then
      .ok (.obj [("source", .obj [("entry", e)])])
    else
      match e with
      | .obj fields =>
        match resolveEntriesLoop globFn root fields [] with
        | .error err => .error err
        | .ok resolved => .ok (.obj [("source", .obj [("entry", .obj resolved)])])
      | _ => .ok (.obj [("source", .obj [("entry", .obj [])])])

/-- `composeBundleConfig` (config.ts): in bundleless mode installs the
relative-import extension-rewriting externals callback (opaque), closed
over the computed JS extension. -/
def composeBundleConfig (jsExtension : String) (bundle : Option JVal) : JVal :=
  let b := destrDefault bundle (.bool true)
  if jsTruthy b then .obj []
  else .obj [
    ("output", .obj [
      ("externals", .arr [.extv "bundlelessExternalRewrite" [.str jsExtension]])])]

/-- Nullish coalescing `a ?? b` where `a` is an optional property read. -/
def jcoalesce (a : Option JVal) (b : JVal) : JVal :=
  match a with
  | some v => if jsNullish v then b else v
  | none => b

/-- `composeDtsConfig` (config.ts): returns the empty fragment when
`dts === false || dts === undefined` — an absent key and a key
explicitly set to `undefined` both skip the plugin; otherwise installs
the declaration plugin (opaque `pluginDts`) with its five-field option
record. -/
def composeDtsConfig (user : JVal) (dtsExtension : String) : JVal :=
  match jget user "dts" with
  | none => .obj []
  | some .undef => .obj []
  | some (.bool false) => .obj []
  | some dts =>
    .obj [
      ("plugins", .arr [
        .extv "pluginDts" [.obj [
          ("bundle", jcoalesce (jget dts "bundle")
            (destrDefault (jget user "bundle") .undef)),
          ("distPath", jcoalesce (jget dts "distPath")
            (jcoalesce (jget3 user "output" "distPath" "root") (.str "./dist"))),
          ("abortOnError", jcoalesce (jget dts "abortOnError") (.bool true)),
          ("dtsExtension", .str dtsExtension),
          ("autoExternal", destrDefault (jget user "autoExternal") .undef)]]])]

/-- `composeTargetConfig` (config.ts): engine target per platform;
`node` additionally externalizes the Node built-in module list (opaque
constant) unconditionally; an out-of-domain target throws. -/
def composeTargetConfig (target : Option JVal) : Except String JVal :=
  let t := destrDefault target (.str "web")
  match t with
  | .str "web" => .ok (.obj [
      ("tools", .obj [("rspack", .obj [("target", .arr [.str "web"])])])])
  | .str "node" => .ok (.obj [
      ("tools", .obj [("rspack", .obj [("target", .arr [.str "node"])])]),
      ("output", .obj [
        ("externals", .extv "nodeBuiltInModules" []),
        ("target", .str "node")])])
  | .str "neutral" => .ok (.obj [
      ("tools", .obj [
        ("rspack", .obj [("target", .arr [.str "web", .str "node"])])])])
  | v => .error ("Unsupported platform: " ++ jsDisplay (some v))

/-- The regex source text `^dep($|\/|\\)` built by
`composeAutoExternalConfig` (config.ts line 140) for one dependency
name: the name is interpolated into the pattern unescaped. -/
def autoExternalRegexSource (dep : String) : String :=
  "^" ++ dep ++ "($|\\/|\\\\)"

/-- First-occurrence deduplication, the behavior of
`Array.from(new Set(xs))`. -/
def dedupFirst : List String → List String
  | [] => []
  | x :: xs => x :: dedupFirst (xs.filter (fun y => !(y == x)))
termination_by l => l.length
decreasing_by
  simp only [List.length_cons]
  exact Nat.lt_succ_of_le (List.length_filter_le _ _)

/-- The warning emitted when `autoExternal` is requested but
`package.json` could not be read (config.ts lines 102–107). -/
def pkgJsonWarning : String :=
  "autoExternal configuration will not be applied due to read package.json failed"

/-- The resolved `externalOptions[field]` flag of
`composeAutoExternalConfig`: the defaults
`{dependencies: true, peerDependencies: true, devDependencies: false}`
spread with the user's selection object when `autoExternal` is one. -/
def autoExternalOptionSelected (autoExternal : JVal) (field : String)
    (dflt : Bool) : Bool :=
  match autoExternal with
  | .obj fs =>
    match fs.lookup field with
    | some v => jsTruthy v
    | none => dflt
  | _ => dflt

/-- `Object.keys` of an optional dependency map. -/
def pkgKeysOf (o : Option (List (String × String))) : List String :=
  match o with
  | some l => l.map Prod.fst
  | none => []

/-- The keys of the user's own externals configuration when it is a
plain object (string or array externals contribute no keys). -/
def userExternalKeysOf (userExternals : Option JVal) : List String :=
  match userExternals with
  | some (.obj fs) => fs.map Prod.fst
  | _ => []

/-- The dependency names gathered by the reduce over
`[dependencies, peerDependencies, devDependencies]` in
`composeAutoExternalConfig`, before the user-externals filter. -/
def autoExternalCandidates (autoExternal : JVal) (pkg : PkgJson) : List String :=
  (if autoExternalOptionSelected autoExternal "dependencies" true
    then pkgKeysOf pkg.dependencies else []) ++
  (if autoExternalOptionSelected autoExternal "peerDependencies" true
    then pkgKeysOf pkg.peerDependencies else []) ++
  (if autoExternalOptionSelected autoExternal "devDependencies" false
    then pkgKeysOf pkg.devDependencies else [])

/-- `composeAutoExternalConfig` (config.ts): turns the selected
dependency lists of `package.json` into exclusion rules — for each name
a subpath-prefix `RegExp` rule and an exact-name rule — skipping names
already configured in the user's own externals object; a missing
`package.json` disables the policy with a warning (second component). -/
def composeAutoExternalConfig (autoExternal : JVal) (pkgJson : Option PkgJson)
    (userExternals : Option JVal) : JVal × List String :=
  if !(jsTruthy autoExternal) then (.obj [], [])
  else
    match pkgJson with
    | none => (.obj [], [pkgJsonWarning])
    | some pkg =>
      let userExternalKeys := userExternalKeysOf userExternals
      let externals := (autoExternalCandidates autoExternal pkg).filter
        (fun name => !(userExternalKeys.contains name))
      let uniqueExternals := dedupFirst externals
      if externals.isEmpty then (.obj [], [])
      else
        (.obj [
          ("output", .obj [
            ("externals", .arr
              (uniqueExternals.map (fun dep => .regexp (autoExternalRegexSource dep)) ++
               uniqueExternals.map JVal.str))])],
         [])

/-- `composeLibRsbuildConfig` (config.ts): computes the nine
configuration fragments of one library unit from the merged user
configuration and merges them in source order.  The `package.json`
snapshot (the result of `readPackageJson`, modelled from §4.1 as
`Option PkgJson`) and the glob expander are passed in explicitly.
Returns the merged fragment configuration together with the warnings
emitted along the way. -/
def composeLibRsbuildConfig (user : JVal) (pkgJson : Option PkgJson)
    (globFn : List String → String → List String) (root : String) :
    Except String (JVal × List String) :=
  match composeFormatConfig (jget user "format") with
  | .error e => .error e
  | .ok formatConfig =>
    match composeExternalsConfig (jget user "format")
        (jget2 user "output" "externals") with
    | .error e => .error e
    | .ok externalsConfig =>
      match composeTargetConfig (jget2 user "output" "target") with
      | .error e => .error e
      | .ok targetConfig =>
        match composeEntryConfig (jget2 user "source" "entry")
            (jget user "bundle") root globFn with
        | .error e => .error e
        | .ok entryConfig =>
          let autoExt := composeAutoExtensionConfig user
            (destrDefault (jget user "autoExtension") (.bool true)) pkgJson
          let autoExternalPair := composeAutoExternalConfig
            (destrDefault (jget user "autoExternal") (.bool true)) pkgJson
            (jget2 user "output" "externals")
          .ok (mergeRsbuildConfigs [formatConfig, externalsConfig, autoExt.1,
                autoExternalPair.1,
                composeSyntaxConfig (jget2 user "output" "syntax")
                  (jget2 user "output" "target"),
                composeBundleConfig autoExt.2.1 (jget user "bundle"),
                targetConfig, entryConfig, composeDtsConfig user autoExt.2.2],
               autoExternalPair.2)

/-- `userConfig.source ??= {}; userConfig.source.entry = {}` — the
first half of the reset step of `composeCreateRsbuildConfig` (config.ts
lines 651–659). -/
def resetEntry (user : JVal) : JVal :=
  jsetKey user "source"
    (jsetKey
      (match jget user "source" with
       | some v => if jsNullish v then .obj [] else v
       | none => .obj [])
      "entry" (.obj []))

/-- `userConfig.output ??= {}; delete userConfig.output.externals` —
the second half of the reset step of `composeCreateRsbuildConfig`
(config.ts lines 651–659). -/
def resetExternals (user : JVal) : JVal :=
  jsetKey user "output"
    (jdeleteKey
      (match jget user "output" with
       | some v => if jsNullish v then .obj [] else v
       | none => .obj [])
      "externals")

/-- The reset step of `composeCreateRsbuildConfig` (config.ts lines
651–659): the entry mapping and externals list have already been folded
into computed fragments and must not be applied twice. -/
def resetUserConfig (user : JVal) : JVal :=
  resetExternals (resetEntry user)

/-- The Rslib-only keys stripped from the user configuration before the
final merge (`omitDeep(userConfig, [...])` in config.ts). -/
def rslibOnlyKeys : List String :=
  ["bundle", "format", "autoExtension", "autoExternal", "syntax", "dts"]

/-- The per-unit body of `composeCreateRsbuildConfig` (config.ts): merge
the shared configuration with the unit's own, compose the fragment
configuration, reset the already-folded user fields, and merge internal
defaults, fragments and the stripped user configuration from low to
high precedence.  Returns the unit's raw `format` value, the final
configuration and the warnings. -/
def composeOneLib (shared lib : JVal) (pkgJson : Option PkgJson)
    (globFn : List String → String → List String) (root : String) :
    Except String (JVal × JVal × List String) :=
  match composeLibRsbuildConfig (jmerge shared lib) pkgJson globFn root with
  | .error e => .error e
  | .ok composed =>
    .ok (destrDefault (jget lib "format") .undef,
         mergeRsbuildConfigs [internalRsbuildConfig, composed.1,
           omitDeep (resetUserConfig (jmerge shared lib)) rslibOnlyKeys],
         composed.2)

/-- The per-unit map of `composeCreateRsbuildConfig` collected by
`Promise.all`: all-or-nothing, failing on the first failing unit. -/
def composeLibList (shared : JVal) (pkgJson : Option PkgJson)
    (globFn : List String → String → List String) (root : String) :
    List JVal → Except String (List (JVal × JVal × List String))
  | [] => .ok []
  | lib :: rest =>
    match composeOneLib shared lib pkgJson globFn root with
    | .error e => .error e
    | .ok item =>
      match composeLibList shared pkgJson globFn root rest with
      | .error e => .error e
      | .ok items => .ok (item :: items)

/-- `composeCreateRsbuildConfig` (config.ts): splits the root
configuration into the shared part and the ordered `lib` list (a
missing list is a hard failure), and composes every library unit. -/
def composeCreateRsbuildConfig (rslibConfig : JVal) (pkgJson : Option PkgJson)
    (globFn : List String → String → List String) (root : String) :
    Except String (List (JVal × JVal × List String)) :=
  match jget rslibConfig "lib" with
  | some (.arr libs) =>
    let shared := jdeleteKey rslibConfig "lib"
    composeLibList shared pkgJson globFn root libs
  | other =>
    .error ("Expect lib field to be an array, but got " ++ jsDisplay other ++ ".")

/-- The environment key string of a composed format value
(`Record<Format, number>` is keyed by the format's string value). -/
def formatKeyString : JVal → String
  | .str s => s
  | v => jsDisplay (some v)

/-- The assembly loop of `initRsbuild` (config.ts): walks the composed
units in declaration order keeping a per-format running index, and
assigns each configuration to the bare format name when that format
occurs exactly once overall, else to the format name suffixed with the
zero-based running index. -/
def assembleLoop (counts : String → Nat) :
    List (String × JVal) → List (String × Nat) → List (String × JVal) →
    List (String × JVal)
  | [], _, envs => envs
  | (f, c) :: rest, idxs, envs =>
    assembleLoop counts rest
      (setKeyReplace idxs f (((idxs.lookup f).getD 0) + 1))
      (setKeyReplace envs
        (if counts f == 1 then f
         else f ++ toString ((idxs.lookup f).getD 0)) c)

/-- The environment map construction of `initRsbuild` (config.ts):
per-format totals via the counting reduce, then the assembly loop
starting from all-zero indices and an empty environments object. -/
def assembleEnvironments (items : List (String × JVal)) : List (String × JVal) :=
  assembleLoop (fun f => (items.filter (fun p => p.1 == f)).length) items [] []

/-- The environment-map part of `initRsbuild` (config.ts): compose all
units, then key their configurations into the environments object. -/
def initRsbuildEnvironments (rslibConfig : JVal) (pkgJson : Option PkgJson)
    (globFn : List String → String → List String) (root : String) :
    Except String (List (String × JVal)) :=
  (composeCreateRsbuildConfig rslibConfig pkgJson globFn root).map (fun items =>
    assembleEnvironments (items.map (fun it => (formatKeyString it.1, it.2.1))))

/-! ## Semantics of the auto-external `RegExp`

`composeAutoExternalConfig` builds `new RegExp("^" + dep + "($|\/|\\)")`
and the engine tests dependency requests against it.  The fragment of
JavaScript regular expressions reachable from such patterns — literal
characters, the wildcard `.` arising from an unescaped dot in a
dependency name, the end anchor `$` and alternation — is given an
executable semantics here.  `charToReg` is faithful exactly for
dependency names whose characters are not regex metacharacters other
than `'.'`; every theorem below restricts its inputs accordingly. -/

/-- Abstract syntax of the regex fragment. -/
inductive Reg where
  | eps
  | ch (c : Char)
  | dot
  | eos
  | seq (a b : Reg)
  | alt (a b : Reg)

/-- Matching semantics: the list of possible remaining suffixes after
matching `r` at the front of the input. -/
def matchR : Reg → List Char → List (List Char)
  | .eps, l => [l]
  | .ch _, [] => []
  | .ch c, x :: xs => if x = c then [xs] else []
  | .dot, [] => []
  | .dot, _ :: xs => [xs]
  | .eos, l => if l.isEmpty then [[]] else []
  | .seq a b, l => (matchR a l).flatMap (matchR b)
  | .alt a b, l => matchR a l ++ matchR b l

/-- The JavaScript regex metacharacters. -/
def isRegexSpecial (c : Char) : Bool :=
  c ∈ ['.', '*', '+', '?', '^', '$', '(', ')', '[', ']', '\x7b', '\x7d', '|', '\\']

/-- Interpretation of one character of the interpolated dependency name:
an unescaped `'.'` becomes the wildcard; a non-special character is a
literal. -/
def charToReg (c : Char) : Reg :=
  if c = '.' then .dot else .ch c

/-- Interpretation of the interpolated dependency name, character by
character. -/
def strToReg : List Char → Reg
  | [] => .eps
  | c :: cs => .seq (charToReg c) (strToReg cs)

/-- The boundary group `($|\/|\\)` of the pattern. -/
def boundaryReg : Reg :=
  .alt .eos (.alt (.ch '/') (.ch '\\'))

/-- The abstract syntax of the pattern with source
`autoExternalRegexSource dep` (the leading `^` anchors matching at the
start of the input, which `depPatternTest` realizes by matching from
position zero only). -/
def depPattern (dep : String) : Reg :=
  .seq (strToReg dep.data) boundaryReg

/-- `new RegExp(autoExternalRegexSource dep).test s`. -/
def depPatternTest (dep s : String) : Bool :=
  !(matchR (depPattern dep) s.data).isEmpty

/-! ## Spec-side definitions

Definitions in this section follow the wording of the specification (and
of the claims derived from it), to be compared with the definitions
above that were translated from the source. -/

/-- The value of the last binding of a key in an association list: the
value an object built by repeated JavaScript assignment would expose. -/
def lastLookup {α : Type} : List (String × α) → String → Option α
  | [], _ => none
  | (k', v) :: t, k =>
    match lastLookup t k with
    | some w => some w
    | none => if k' == k then some v else none

/-- Spec side (§6, amended): the declaration-emission plugin is
invoked for a library unit exactly when its `dts` setting is set to a
value other than `false` and `undefined`. -/
def dtsEnabledSpec (user : JVal) : Bool :=
  match jget user "dts" with
  | none => false
  | some .undef => false
  | some (.bool false) => false
  | some _ => true

/-- Spec side (§4.7): merge an ordered list of configuration layers,
lowest precedence first, highest last. -/
def specMergeLowToHigh (layers : List JVal) : JVal :=
  match layers with
  | [] => .obj []
  | x :: xs => xs.foldl jmerge x

/-- Spec side (§4.7 and claim C1): the computed fragments of one
library unit in their fixed order — format, externals, auto-extension,
auto-external, syntax, bundle, target, entry, declaration. -/
def specComputedFragments (user : JVal) (pkgJson : Option PkgJson)
    (globFn : List String → String → List String) (root : String) :
    Except String (List JVal) :=
  match composeFormatConfig (jget user "format") with
  | .error e => .error e
  | .ok formatConfig =>
    match composeExternalsConfig (jget user "format")
        (jget2 user "output" "externals") with
    | .error e => .error e
    | .ok externalsConfig =>
      match composeTargetConfig (jget2 user "output" "target") with
      | .error e => .error e
      | .ok targetConfig =>
        match composeEntryConfig (jget2 user "source" "entry")
            (jget user "bundle") root globFn with
        | .error e => .error e
        | .ok entryConfig =>
          let autoExt := composeAutoExtensionConfig user
            (destrDefault (jget user "autoExtension") (.bool true)) pkgJson
          .ok [formatConfig, externalsConfig, autoExt.1,
               (composeAutoExternalConfig
                 (destrDefault (jget user "autoExternal") (.bool true)) pkgJson
                 (jget2 user "output" "externals")).1,
               composeSyntaxConfig (jget2 user "output" "syntax")
                 (jget2 user "output" "target"),
               composeBundleConfig autoExt.2.1 (jget user "bundle"),
               targetConfig, entryConfig, composeDtsConfig user autoExt.2.2]

/-- Spec side (claim C1): the final configuration of a library unit is
the low→high merge of (a) the built-in internal defaults, (b) the
computed fragments in their fixed order, and (c) the user's declared
configuration with its entry mapping and externals list reset/removed
(and the Rslib-only keys stripped) before the merge. -/
def specComposeOneLib (shared lib : JVal) (pkgJson : Option PkgJson)
    (globFn : List String → String → List String) (root : String) :
    Except String JVal :=
  match specComputedFragments (jmerge shared lib) pkgJson globFn root with
  | .error e => .error e
  | .ok frags =>
    .ok (specMergeLowToHigh
      [internalRsbuildConfig,
       specMergeLowToHigh frags,
       omitDeep (resetUserConfig (jmerge shared lib)) rslibOnlyKeys])

/-- The three valid format names. -/
def formatNames : List String := ["esm", "cjs", "umd"]

/-- Spec side (§4.8 and claim C4): the environment key of the unit at
position `i` — the bare format name when that format occurs exactly
once overall, else the format name with the zero-based count of its
earlier occurrences appended. -/
def envKeySpec (fmts : List String) (i : Nat) : String :=
  if (fmts.filter (fun g => g == fmts.getD i "")).length == 1 then fmts.getD i ""
  else fmts.getD i "" ++
    toString ((fmts.take i).filter (fun g => g == fmts.getD i "")).length

/-- Spec side (claim C4): every composed unit keyed by `envKeySpec` in
declaration order. -/
def assembleEnvironmentsSpec (items : List (String × JVal)) : List (String × JVal) :=
  items.enum.map (fun p => (envKeySpec (items.map Prod.fst) p.1, p.2.2))

/-- Decimal decode of a digit list: the left inverse of `Nat.toDigits`
used to prove that environment-key indices never collide. -/
def decDigitsVal (cs : List Char) : Nat :=
  cs.foldl (fun a c => a * 10 + (c.toNat - 48)) 0

/-- The externals rule list inside a fragment produced by
`composeAutoExternalConfig`. -/
def externalsRulesOf (r : JVal × List String) : List JVal :=
  match jget2 r.1 "output" "externals" with
  | some (.arr xs) => xs
  | _ => []

/-! ## Helper lemmas -/

theorem lookup_setKeyReplace_self {α : Type} (l : List (String × α)) (k : String)
    (v : α) : (setKeyReplace l k v).lookup k = some v := by
  induction l with
  | nil => simp [setKeyReplace, List.lookup]
  | cons hd t ih =>
    obtain ⟨k', w⟩ := hd
    by_cases hk : k' = k
    · subst hk
      simp [setKeyReplace, List.lookup]
    · simp only [setKeyReplace, beq_iff_eq, hk, if_false, List.lookup]
      have : (k == k') = false := by simp [BEq.comm]; exact fun h => hk h.symm
      simp [this, ih]

theorem lookup_setKeyReplace_ne {α : Type} (l : List (String × α)) (k k' : String)
    (v : α) (h : k' ≠ k) : (setKeyReplace l k v).lookup k' = l.lookup k' := by
  have hb : (k' == k) = false := by simp [h]
  induction l with
  | nil => simp [setKeyReplace, List.lookup, hb]
  | cons hd t ih =>
    obtain ⟨k0, w⟩ := hd
    by_cases hk : k0 = k
    · subst hk
      simp [setKeyReplace, List.lookup, hb]
    · have h1 : (k0 == k) = false := by simp [hk]
      simp only [setKeyReplace, h1, Bool.false_eq_true, if_false, List.lookup]
      cases hkk : (k' == k0) <;> simp [ih]

theorem lookup_objSpread (a b : List (String × JVal)) (k : String) :
    (objSpread a b).lookup k =
      match lastLookup b k with
      | some v => some v
      | none => a.lookup k := by
  induction b generalizing a with
  | nil => simp [objSpread, lastLookup]
  | cons hd t ih =>
    obtain ⟨k0, v0⟩ := hd
    have hstep : objSpread a ((k0, v0) :: t) = objSpread (setKeyReplace a k0 v0) t := rfl
    rw [hstep, ih]
    cases hlast : lastLookup t k with
    | some w => simp [lastLookup, hlast]
    | none =>
      simp only [lastLookup, hlast]
      by_cases hk : k0 = k
      · subst hk
        simp [lookup_setKeyReplace_self]
      · have h1 : (k0 == k) = false := by simp [hk]
        have h2 : k ≠ k0 := fun h => hk h.symm
        simp [h1, lookup_setKeyReplace_ne a k0 k v0 h2]

/-! ## Claims -/

/-- C9: Composition is deterministic — running the compose operation
twice on identical inputs (root configuration, package snapshot, glob
expansion, root path) produces structurally identical results for every
library unit, because the embedded pipeline is a pure function of those
inputs. -/
theorem C9_compose_deterministic (rslibConfig : JVal) (pkgJson : Option PkgJson)
    (globFn : List String → String → List String) (root : String) :
    composeCreateRsbuildConfig rslibConfig pkgJson globFn root =
      composeCreateRsbuildConfig rslibConfig pkgJson globFn root := rfl

/-- C6: In bundleless mode an entry key whose globs expand to zero
files fails fatally, but the thrown message interpolates the empty
match array — it is exactly `"Cannot find "` and does not name the
unmatched entry key `"index"` (the spec requires the key to be named:
this is the code bug recorded for this claim). -/
theorem C6_entry_resolution_empty_message :
    composeEntryConfig (some (.obj [("index", .str "src/*.ts")]))
        (some (.bool false)) "." (fun _ _ => []) = .error "Cannot find " ∧
      ¬ ("index".data <:+: "Cannot find ".data) := by
  refine ⟨rfl, ?_⟩
  decide

/-- C7 (amended): the declaration-emission plugin is installed for a
library unit if and only if its `dts` setting is set to a value other
than `false` and `undefined` — in particular an absent `dts`, and a
`dts` explicitly set to `undefined`, both skip the plugin, which is
what the correction records. -/
theorem C7_dts_plugin_invocation (user : JVal) (dtsExtension : String) :
    (jget (composeDtsConfig user dtsExtension) "plugins").isSome =
      dtsEnabledSpec user := by
  unfold composeDtsConfig dtsEnabledSpec
  cases hd : jget user "dts" with
  | none => rfl
  | some v =>
    cases v with
    | bool b => cases b <;> rfl
    | undef => rfl
    | null => rfl
    | num n => rfl
    | str s => rfl
    | regexp s => rfl
    | extv t a => rfl
    | arr xs => rfl
    | obj fs => rfl

/-- C7 (counterexample): for a unit with no `dts` setting the claim's
biconditional fails — `dts` is not explicitly disabled, yet the plugin
fragment is empty. -/
theorem C7_dts_counterexample :
    ¬ (((jget (composeDtsConfig (.obj [("format", .str "esm")]) ".d.ts")
          "plugins").isSome = true) ↔
        jget (.obj [("format", .str "esm")] : JVal) "dts" ≠ some (.bool false)) := by
  intro h
  have h2 : jget (.obj [("format", .str "esm")] : JVal) "dts" ≠ some (.bool false) := by
    have h0 : jget (.obj [("format", .str "esm")] : JVal) "dts" = none := rfl
    rw [h0]
    exact fun hc => Option.noConfusion hc
  have h1 := h.mpr h2
  have h3 : (jget (composeDtsConfig (.obj [("format", .str "esm")]) ".d.ts")
      "plugins").isSome = false := rfl
  rw [h3] at h1
  exact Bool.noConfusion h1

/-- C2: the computed (JS extension, declaration extension) pair follows
the §4.4 decision table for every combination of format, package `type`
and `autoExtension` the table covers, and an explicit user
`output.filename.js` rule always overrides the computed default in the
auto-extension fragment. -/
theorem C2_extension_table (user : JVal) (autoExtension : JVal)
    (pkg : Option PkgJson) (fs : List (String × JVal)) (v : JVal)
    (hov : jget2 user "output" "filename" = some (.obj fs))
    (hjs : lastLookup fs "js" = some v) :
    (getDefaultExtension (some (.str "esm")) (some "commonjs") true
      = (".mjs", ".d.mts")) ∧
    (getDefaultExtension (some (.str "esm")) (some "module") true
      = (".js", ".d.ts")) ∧
    (getDefaultExtension (some (.str "esm")) none true = (".js", ".d.ts")) ∧
    (getDefaultExtension (some (.str "cjs")) (some "commonjs") true
      = (".js", ".d.ts")) ∧
    (getDefaultExtension (some (.str "cjs")) (some "module") true
      = (".cjs", ".d.cts")) ∧
    (∀ f pt, getDefaultExtension f pt false = (".js", ".d.ts")) ∧
    (∀ pt b, getDefaultExtension (some (.str "umd")) pt b = (".js", ".d.ts")) ∧
    (jget3 (composeAutoExtensionConfig user autoExtension pkg).1
        "output" "filename" "js" = some v) := by
  refine ⟨rfl, rfl, rfl, rfl, rfl, fun f pt => rfl, fun pt b => ?_, ?_⟩
  · cases b <;> rfl
  · simp only [composeAutoExtensionConfig, hov]
    simp only [jget3, jget2, jget, List.lookup, beq_self_eq_true]
    rw [lookup_objSpread]
    simp [hjs]

/-- C10: with `autoExternal` exactly `true`, only `dependencies` and
`peerDependencies` are consulted — the `devDependencies` list is
irrelevant to the result — and a selection object explicitly enabling
`devDependencies` brings its names in. -/
theorem C10_dev_dependencies_excluded :
    (∀ (pkg : PkgJson) (ue : Option JVal),
      composeAutoExternalConfig (.bool true) (some pkg) ue =
        composeAutoExternalConfig (.bool true)
          (some { pkg with devDependencies := none }) ue) ∧
    (∀ l, composeAutoExternalConfig (.bool true)
        (some { devDependencies := some l }) none = (.obj [], [])) ∧
    (∀ n ver, composeAutoExternalConfig
        (.obj [("devDependencies", .bool true)])
        (some { devDependencies := some [(n, ver)] }) none =
      (.obj [("output", .obj [("externals", .arr
        [.regexp (autoExternalRegexSource n), .str n])])], [])) := by
  refine ⟨fun pkg ue => rfl, fun l => rfl, fun n ver => ?_⟩
  simp [composeAutoExternalConfig, autoExternalCandidates,
    autoExternalOptionSelected, pkgKeysOf, userExternalKeysOf, dedupFirst,
    List.lookup, jsTruthy]

/-- The concrete user configuration used to witness C2. -/
def extensionWitnessUser : JVal := .obj [
  ("format", .str "esm"),
  ("output", .obj [("filename", .obj [("js", .str "[name].custom.js")])])]

/-- Witness for C2 at a concrete input: a unit with an explicit
`output.filename.js` rule keeps that rule in the composed fragment even
though the table would pick `.mjs`. -/
theorem C2_extension_witness :
    jget2 extensionWitnessUser "output" "filename" =
        some (.obj [("js", .str "[name].custom.js")]) ∧
      jget3 (composeAutoExtensionConfig extensionWitnessUser (.bool true)
          (some {ptype := some "commonjs"})).1 "output" "filename" "js" =
        some (.str "[name].custom.js") :=
  ⟨rfl,
   (C2_extension_table extensionWitnessUser (.bool true)
      (some {ptype := some "commonjs"}) [("js", .str "[name].custom.js")]
      (.str "[name].custom.js") rfl rfl).2.2.2.2.2.2.2⟩

/-- The success flag of an error-propagating match equals that of its
scrutinee. -/
theorem isOk_except_map {α β : Type} (m : Except String α) (g : α → β) :
    (match m with
     | .error e => (.error e : Except String β)
     | .ok a => .ok (g a)).isOk = m.isOk := by
  cases m <;> rfl

/-- The success flag of a four-step error-propagating chain is the
conjunction of the steps' flags, whatever the final payload. -/
theorem isOk_chain4 {β : Type} (m₁ m₂ m₃ m₄ : Except String JVal)
    (k : JVal → JVal → JVal → JVal → β) :
    (match m₁ with
     | .error e => (.error e : Except String β)
     | .ok a₁ =>
       match m₂ with
       | .error e => .error e
       | .ok a₂ =>
         match m₃ with
         | .error e => .error e
         | .ok a₃ =>
           match m₄ with
           | .error e => .error e
           | .ok a₄ => .ok (k a₁ a₂ a₃ a₄)).isOk =
      (m₁.isOk && m₂.isOk && m₃.isOk && m₄.isOk) := by
  cases m₁ <;> cases m₂ <;> cases m₃ <;> cases m₄ <;> rfl

/-- Success of one unit's fragment composition is exactly the success
of its four fallible steps (format, externals, target, entry) — none of
which consults the package snapshot. -/
theorem composeLibRsbuildConfig_isOk (user : JVal) (pkg : Option PkgJson)
    (globFn : List String → String → List String) (root : String) :
    (composeLibRsbuildConfig user pkg globFn root).isOk =
      ((composeFormatConfig (jget user "format")).isOk &&
       (composeExternalsConfig (jget user "format")
         (jget2 user "output" "externals")).isOk &&
       (composeTargetConfig (jget2 user "output" "target")).isOk &&
       (composeEntryConfig (jget2 user "source" "entry")
         (jget user "bundle") root globFn).isOk) := by
  unfold composeLibRsbuildConfig
  exact isOk_chain4 _ _ _ _ _

/-- Success of one unit's fragment composition does not depend on the
package snapshot. -/
theorem composeLibRsbuildConfig_isOk_indep (user : JVal) (pkg : Option PkgJson)
    (globFn : List String → String → List String) (root : String) :
    (composeLibRsbuildConfig user pkg globFn root).isOk =
      (composeLibRsbuildConfig user none globFn root).isOk := by
  rw [composeLibRsbuildConfig_isOk, composeLibRsbuildConfig_isOk]

/-- Success of one unit's end-to-end composition is the success of its
fragment composition. -/
theorem composeOneLib_isOk (shared lib : JVal) (pkg : Option PkgJson)
    (globFn : List String → String → List String) (root : String) :
    (composeOneLib shared lib pkg globFn root).isOk =
      (composeLibRsbuildConfig (jmerge shared lib) pkg globFn root).isOk := by
  unfold composeOneLib
  cases composeLibRsbuildConfig (jmerge shared lib) pkg globFn root with
  | error e => rfl
  | ok composed => rfl

/-- C8: a missing or unparsable package manifest never fails
composition on that account — the auto-external fragment degrades to
the empty fragment with the warning emitted, and whether a unit
composes successfully is independent of the package snapshot (all other
fragments are still computed). -/
theorem C8_manifest_missing (autoExternal : JVal) (ue : Option JVal)
    (h : jsTruthy autoExternal = true) (shared lib : JVal)
    (globFn : List String → String → List String) (root : String)
    (pkg : Option PkgJson) :
    composeAutoExternalConfig autoExternal none ue = (.obj [], [pkgJsonWarning]) ∧
      (composeOneLib shared lib none globFn root).isOk =
        (composeOneLib shared lib pkg globFn root).isOk := by
  constructor
  · simp [composeAutoExternalConfig, h]
  · rw [composeOneLib_isOk, composeOneLib_isOk]
    exact (composeLibRsbuildConfig_isOk_indep (jmerge shared lib) pkg
      globFn root).symm

/-- Witness for C8 at a concrete input: a unit composed without any
package snapshot still succeeds exactly as with an empty one, and the
auto-external fragment is empty with the warning. -/
theorem C8_manifest_missing_witness :
    composeAutoExternalConfig (.bool true) none none = (.obj [], [pkgJsonWarning]) ∧
      (composeOneLib (.obj []) (.obj [("format", .str "esm")]) none
          (fun _ _ => ["src/index.ts"]) ".").isOk =
        (composeOneLib (.obj []) (.obj [("format", .str "esm")])
          (some ({} : PkgJson)) (fun _ _ => ["src/index.ts"]) ".").isOk :=
  ⟨(C8_manifest_missing (.bool true) none rfl (.obj [])
      (.obj [("format", .str "esm")]) (fun _ _ => ["src/index.ts"]) "."
      (some ({} : PkgJson))).1,
   (C8_manifest_missing (.bool true) none rfl (.obj [])
      (.obj [("format", .str "esm")]) (fun _ _ => ["src/index.ts"]) "."
      (some ({} : PkgJson))).2⟩

theorem mem_dedupFirst (n : String) (l : List String) :
    n ∈ dedupFirst l ↔ n ∈ l := by
  induction l using dedupFirst.induct with
  | case1 => simp [dedupFirst]
  | case2 x xs ih =>
    rw [dedupFirst]
    simp only [List.mem_cons, ih, List.mem_filter]
    by_cases hx : n = x
    · simp [hx]
    · simp [hx]

theorem autoExternalRegexSource_inj (a b : String)
    (h : autoExternalRegexSource a = autoExternalRegexSource b) : a = b := by
  unfold autoExternalRegexSource at h
  have hd := congrArg String.data h
  simp only [String.data_append] at hd
  rw [List.append_assoc, List.append_assoc] at hd
  exact String.ext (List.append_cancel_right (List.append_cancel_left hd))

/-- The value of `composeAutoExternalConfig` when the policy is enabled
and the manifest is present, written over the named sub-definitions. -/
theorem composeAutoExternalConfig_enabled (ae : JVal) (pkg : PkgJson)
    (ue : Option JVal) (htruthy : jsTruthy ae = true) :
    composeAutoExternalConfig ae (some pkg) ue =
      (if ((autoExternalCandidates ae pkg).filter
          (fun name => !((userExternalKeysOf ue).contains name))).isEmpty
       then (.obj [], [])
       else (.obj [("output", .obj [("externals", .arr
         ((dedupFirst ((autoExternalCandidates ae pkg).filter
             (fun name => !((userExternalKeysOf ue).contains name)))).map
            (fun dep => .regexp (autoExternalRegexSource dep)) ++
          (dedupFirst ((autoExternalCandidates ae pkg).filter
             (fun name => !((userExternalKeysOf ue).contains name)))).map
            JVal.str))])], [])) := by
  unfold composeAutoExternalConfig
  rw [htruthy]
  rfl

/-- C5: with auto-external enabled, every dependency name gathered from
a selected list yields both the prefix `RegExp` rule and the exact-name
rule in the computed externals, unless the name is already a key of the
user's own externals object, in which case neither rule is produced —
the computed externals never duplicate a user-configured external. -/
theorem C5_auto_external_rules (ae : JVal) (pkg : PkgJson) (ue : Option JVal)
    (n : String) (htruthy : jsTruthy ae = true)
    (hmem : n ∈ autoExternalCandidates ae pkg) :
    (n ∉ userExternalKeysOf ue →
      JVal.regexp (autoExternalRegexSource n) ∈
        externalsRulesOf (composeAutoExternalConfig ae (some pkg) ue) ∧
      JVal.str n ∈
        externalsRulesOf (composeAutoExternalConfig ae (some pkg) ue)) ∧
    (n ∈ userExternalKeysOf ue →
      JVal.regexp (autoExternalRegexSource n) ∉
        externalsRulesOf (composeAutoExternalConfig ae (some pkg) ue) ∧
      JVal.str n ∉
        externalsRulesOf (composeAutoExternalConfig ae (some pkg) ue)) := by
  rw [composeAutoExternalConfig_enabled ae pkg ue htruthy]
  constructor
  · intro hnot
    have hfilter : n ∈ (autoExternalCandidates ae pkg).filter
        (fun name => !((userExternalKeysOf ue).contains name)) := by
      rw [List.mem_filter]
      refine ⟨hmem, ?_⟩
      simpa using hnot
    have hne : ((autoExternalCandidates ae pkg).filter
        (fun name => !((userExternalKeysOf ue).contains name))).isEmpty = false := by
      cases h1 : ((autoExternalCandidates ae pkg).filter
          (fun name => !((userExternalKeysOf ue).contains name))).isEmpty
      · rfl
      · exact absurd (List.isEmpty_iff.mp h1 ▸ hfilter) (List.not_mem_nil n)
    rw [hne]
    simp only [Bool.false_eq_true, if_false, externalsRulesOf, jget2, jget,
      List.lookup, beq_self_eq_true]
    have hdedup : n ∈ dedupFirst ((autoExternalCandidates ae pkg).filter
        (fun name => !((userExternalKeysOf ue).contains name))) :=
      (mem_dedupFirst n _).mpr hfilter
    constructor
    · exact List.mem_append.mpr (Or.inl
        (List.mem_map_of_mem (fun dep => JVal.regexp (autoExternalRegexSource dep))
          hdedup))
    · exact List.mem_append.mpr (Or.inr (List.mem_map_of_mem JVal.str hdedup))
  · intro hkey
    have hnotfilter : n ∉ (autoExternalCandidates ae pkg).filter
        (fun name => !((userExternalKeysOf ue).contains name)) := by
      intro hq
      have := (List.mem_filter.mp hq).2
      simp at this
      exact this hkey
    have hnotdedup : n ∉ dedupFirst ((autoExternalCandidates ae pkg).filter
        (fun name => !((userExternalKeysOf ue).contains name))) := by
      intro hq
      exact hnotfilter ((mem_dedupFirst n _).mp hq)
    cases hE : ((autoExternalCandidates ae pkg).filter
        (fun name => !((userExternalKeysOf ue).contains name))).isEmpty
    · simp only [Bool.false_eq_true, if_false, externalsRulesOf, jget2, jget,
        List.lookup, beq_self_eq_true]
      constructor
      · intro hq
        rcases List.mem_append.mp hq with hq1 | hq2
        · rcases List.mem_map.mp hq1 with ⟨m, hm, hval⟩
          have : autoExternalRegexSource m = autoExternalRegexSource n := by
            injection hval
          exact hnotdedup (autoExternalRegexSource_inj m n this ▸ hm)
        · rcases List.mem_map.mp hq2 with ⟨m, _, hval⟩
          exact JVal.noConfusion hval
      · intro hq
        rcases List.mem_append.mp hq with hq1 | hq2
        · rcases List.mem_map.mp hq1 with ⟨m, _, hval⟩
          exact JVal.noConfusion hval
        · rcases List.mem_map.mp hq2 with ⟨m, hm, hval⟩
          have : m = n := by injection hval
          exact hnotdedup (this ▸ hm)
    · simp [externalsRulesOf, jget2, jget]

/-- The concrete package snapshot used to witness C5. -/
def autoExternalWitnessPkg : PkgJson := {dependencies := some [("bar", "^1.0.0")]}

/-- The concrete user externals object used to witness C5. -/
def autoExternalWitnessUE : Option JVal := some (.obj [("react", .str "react-1")])

/-- Witness for C5 at a concrete input: `bar` from `dependencies`
produces both rules while the user's `react` key is respected. -/
theorem C5_auto_external_witness :
    "bar" ∈ autoExternalCandidates (.bool true) autoExternalWitnessPkg ∧
      "bar" ∉ userExternalKeysOf autoExternalWitnessUE ∧
      (JVal.regexp (autoExternalRegexSource "bar") ∈
        externalsRulesOf (composeAutoExternalConfig (.bool true)
          (some autoExternalWitnessPkg) autoExternalWitnessUE) ∧
       JVal.str "bar" ∈
        externalsRulesOf (composeAutoExternalConfig (.bool true)
          (some autoExternalWitnessPkg) autoExternalWitnessUE)) :=
  ⟨by decide, by decide,
   (C5_auto_external_rules (.bool true) autoExternalWitnessPkg
      autoExternalWitnessUE "bar" rfl (by decide)).1 (by decide)⟩

theorem matchR_strToReg_literal :
    ∀ (l : List Char), (∀ c ∈ l, isRegexSpecial c = false) →
      ∀ s : List Char, matchR (strToReg l) s =
        if l <+: s then [s.drop l.length] else []
  | [], _, s => by simp [strToReg, matchR]
  | c :: cs, hl, s => by
    have hcdot : ¬ (c = '.') := by
      intro hc
      have := hl c (List.mem_cons_self c cs)
      rw [hc] at this
      simp [isRegexSpecial] at this
    have hc : charToReg c = .ch c := by
      unfold charToReg
      rw [if_neg hcdot]
    cases s with
    | nil =>
      rw [strToReg]
      rw [show matchR ((charToReg c).seq (strToReg cs)) [] =
        (matchR (charToReg c) []).flatMap (matchR (strToReg cs)) from rfl]
      rw [hc]
      simp [matchR]
    | cons x xs =>
      rw [strToReg]
      rw [show matchR ((charToReg c).seq (strToReg cs)) (x :: xs) =
        (matchR (charToReg c) (x :: xs)).flatMap (matchR (strToReg cs)) from rfl]
      rw [hc]
      by_cases hx : x = c
      · subst hx
        rw [show matchR (Reg.ch x) (x :: xs) = [xs] from by simp [matchR]]
        rw [show ([xs] : List (List Char)).flatMap (matchR (strToReg cs)) =
          matchR (strToReg cs) xs from by simp]
        rw [matchR_strToReg_literal cs
          (fun d hd => hl d (List.mem_cons_of_mem x hd)) xs]
        simp [List.cons_prefix_cons]
      · rw [show matchR (Reg.ch c) (x :: xs) = [] from by simp [matchR, hx]]
        have hnp : ¬ (c :: cs <+: x :: xs) := by
          rw [List.cons_prefix_cons]
          rintro ⟨h1, _⟩
          exact hx h1.symm
        simp [hnp]

theorem matchR_boundary_chars (r : List Char) :
    (matchR boundaryReg r).isEmpty = false ↔
      r = [] ∨ (∃ t, r = '/' :: t) ∨ (∃ t, r = '\\' :: t) := by
  cases r with
  | nil => simp [boundaryReg, matchR]
  | cons x xs =>
    by_cases h1 : x = '/'
    · subst h1
      simp [boundaryReg, matchR]
    · by_cases h2 : x = '\\'
      · subst h2
        simp [boundaryReg, matchR]
      · simp [boundaryReg, matchR, h1, h2]

/-- C3 (amended): for a dependency name containing no regex
metacharacter, the generated pattern `^name($|\/|\\)` matches a request
exactly when the request is the literal name, or the literal name
followed by `'/'` or `'\'` and anything after; a name containing a
metacharacter (such as `'.'`) is interpolated unescaped and can match
unrelated names, which is what the correction records. -/
theorem C3_prefix_pattern (dep s : String)
    (hlit : ∀ c ∈ dep.data, isRegexSpecial c = false) :
    depPatternTest dep s = true ↔
      (s = dep ∨ (∃ r, s = dep ++ "/" ++ r) ∨ (∃ r, s = dep ++ "\\" ++ r)) := by
  have hex : ∀ (c : Char) (cstr : String), cstr.data = [c] →
      ((∃ r, s = dep ++ cstr ++ r) ↔ ∃ t, s.data = dep.data ++ c :: t) := by
    intro c cstr hcd
    constructor
    · rintro ⟨r, rfl⟩
      refine ⟨r.data, ?_⟩
      simp [String.data_append, hcd]
    · rintro ⟨t, ht⟩
      refine ⟨⟨t⟩, String.ext ?_⟩
      simp [String.data_append, hcd, ht]
  rw [String.ext_iff, hex '/' "/" rfl, hex '\\' "\\" rfl]
  unfold depPatternTest depPattern
  rw [show matchR ((strToReg dep.data).seq boundaryReg) s.data =
    (matchR (strToReg dep.data) s.data).flatMap (matchR boundaryReg) from rfl]
  rw [matchR_strToReg_literal dep.data hlit s.data]
  by_cases hpre : dep.data <+: s.data
  · rw [if_pos hpre]
    rw [show ([s.data.drop dep.data.length] : List (List Char)).flatMap
      (matchR boundaryReg) = matchR boundaryReg (s.data.drop dep.data.length)
      from by simp]
    rw [Bool.not_eq_true']
    rw [matchR_boundary_chars]
    obtain ⟨t, ht⟩ := hpre
    have hdrop : s.data.drop dep.data.length = t := by
      rw [← ht]
      exact List.drop_left _ _
    rw [hdrop, ← ht]
    constructor
    · rintro (rfl | ⟨u, rfl⟩ | ⟨u, rfl⟩)
      · exact Or.inl (by simp)
      · exact Or.inr (Or.inl ⟨u, rfl⟩)
      · exact Or.inr (Or.inr ⟨u, rfl⟩)
    · rintro (h | ⟨u, hu⟩ | ⟨u, hu⟩)
      · have hlen := congrArg List.length h
        simp at hlen
        exact Or.inl hlen
      · exact Or.inr (Or.inl ⟨u, List.append_cancel_left hu⟩)
      · exact Or.inr (Or.inr ⟨u, List.append_cancel_left hu⟩)
  · rw [if_neg hpre]
    rw [show (([] : List (List Char)).flatMap (matchR boundaryReg)) = []
      from rfl]
    simp only [List.isEmpty_nil, Bool.not_true, Bool.false_eq_true, false_iff]
    rintro (h | ⟨u, hu⟩ | ⟨u, hu⟩)
    · exact hpre (h ▸ List.prefix_refl _)
    · exact hpre (hu ▸ List.prefix_append _ _)
    · exact hpre (hu ▸ List.prefix_append _ _)

/-- Witness for C3's amended theorem at a concrete input: `react` is
metacharacter-free and its pattern accepts the deep import
`react/jsx-runtime`. -/
theorem C3_prefix_pattern_witness :
    (∀ c ∈ ("react" : String).data, isRegexSpecial c = false) ∧
      depPatternTest "react" "react/jsx-runtime" = true :=
  ⟨by decide,
   (C3_prefix_pattern "react" "react/jsx-runtime" (by decide)).mpr
     (Or.inr (Or.inl ⟨"jsx-runtime", rfl⟩))⟩

/-- C3 (counterexample): the dependency name `a.b` contains the regex
metacharacter `'.'`; its generated pattern (source `^a.b($|\/|\\)`)
matches the unrelated request `axb`, which neither equals `a.b` nor
continues it at a `/` or `\` boundary — so the claim as stated fails
for names with regex-special characters. -/
theorem C3_counterexample :
    depPatternTest "a.b" "axb" = true ∧
      ("axb" : String) ≠ "a.b" ∧
      ¬ ("a.b".data <+: "axb".data) ∧
      autoExternalRegexSource "a.b" = "^a.b($|\\/|\\\\)" := by
  refine ⟨by decide, by decide, by decide, rfl⟩

theorem lookup_filter_key_none {α : Type} (l : List (String × α)) (k : String) :
    (l.filter (fun p => !(p.1 == k))).lookup k = none := by
  induction l with
  | nil => rfl
  | cons hd t ih =>
    obtain ⟨k', v⟩ := hd
    by_cases h : k' = k
    · simp only [List.filter, h, beq_self_eq_true, Bool.not_true]
      exact ih
    · have h1 : (k' == k) = false := by simp [h]
      have h2 : (k == k') = false := by
        rw [beq_eq_false_iff_ne]
        exact Ne.symm h
      simp only [List.filter, h1, Bool.not_false, List.lookup, h2]
      exact ih

theorem jget_jdeleteKey_self (v : JVal) (k : String) :
    jget (jdeleteKey v k) k = none := by
  cases v <;> try rfl
  exact lookup_filter_key_none _ k

/-- C1: for every library unit the final composed configuration is the
low→high merge of (a) the built-in internal defaults, (b) the computed
fragments in their fixed order (format, externals, auto-extension,
auto-external, syntax, bundle, target, entry, declaration), and (c) the
user's declared configuration — from which the entry mapping is reset
to empty and the externals list removed before the merge, so neither is
applied twice. -/
theorem C1_compose_precedence :
    (∀ (shared lib : JVal) (pkg : Option PkgJson)
        (globFn : List String → String → List String) (root : String),
      (composeOneLib shared lib pkg globFn root).map (fun r => r.2.1) =
        specComposeOneLib shared lib pkg globFn root) ∧
    (∀ user : JVal, jget2 (resetUserConfig user) "output" "externals" = none) ∧
    (∀ fs : List (String × JVal),
      (jget (.obj fs : JVal) "source" = none ∨
        ∃ e, jget (.obj fs : JVal) "source" = some (.obj e)) →
      jget2 (resetUserConfig (.obj fs)) "source" "entry" = some (.obj [])) := by
  refine ⟨?_, ?_, ?_⟩
  · intro shared lib pkg globFn root
    unfold composeOneLib composeLibRsbuildConfig specComposeOneLib
      specComputedFragments
    cases composeFormatConfig (jget (jmerge shared lib) "format") with
    | error e => rfl
    | ok fc =>
      cases composeExternalsConfig (jget (jmerge shared lib) "format")
          (jget2 (jmerge shared lib) "output" "externals") with
      | error e => rfl
      | ok ec =>
        cases composeTargetConfig (jget2 (jmerge shared lib) "output" "target") with
        | error e => rfl
        | ok tc =>
          cases composeEntryConfig (jget2 (jmerge shared lib) "source" "entry")
              (jget (jmerge shared lib) "bundle") root globFn with
          | error e => rfl
          | ok entc => rfl
  · intro user
    show jget2 (resetExternals (resetEntry user)) "output" "externals" = none
    generalize resetEntry user = u
    unfold resetExternals
    cases u <;> try rfl
    next fs =>
      simp only [jsetKey, jget2, jget, lookup_setKeyReplace_self]
      exact jget_jdeleteKey_self _ "externals"
  · intro fs hsrc
    show jget2 (resetExternals (resetEntry (.obj fs))) "source" "entry" =
      some (.obj [])
    have hne : ("source" : String) ≠ "output" := by decide
    rcases hsrc with h | ⟨e, h⟩
    · unfold resetEntry
      rw [h]
      unfold resetExternals
      simp only [jsetKey, jget2, jget, lookup_setKeyReplace_ne _ "output"
        "source" _ hne, lookup_setKeyReplace_self]
    · unfold resetEntry
      rw [h]
      unfold resetExternals
      simp only [jsNullish, Bool.false_eq_true, if_false, jsetKey, jget2, jget,
        lookup_setKeyReplace_ne _ "output" "source" _ hne,
        lookup_setKeyReplace_self]

/-- Witness for C1 at a concrete input: an `esm` unit composed against
empty shared config matches the spec-side layered merge, and the reset
step empties a concrete user entry mapping. -/
theorem C1_compose_precedence_witness :
    (composeOneLib (.obj []) (.obj [("format", .str "esm")]) none
        (fun _ _ => []) ".").map (fun r => r.2.1) =
      specComposeOneLib (.obj []) (.obj [("format", .str "esm")]) none
        (fun _ _ => []) "." ∧
    jget2 (resetUserConfig (.obj [("source", .obj [("entry",
        .obj [("index", .str "src/index.ts")])])])) "source" "entry" =
      some (.obj []) :=
  ⟨C1_compose_precedence.1 (.obj []) (.obj [("format", .str "esm")]) none
      (fun _ _ => []) ".",
   C1_compose_precedence.2.2 _ (Or.inr ⟨_, rfl⟩)⟩

theorem digitChar_decode (m : Nat) (h : m < 10) :
    (Nat.digitChar m).toNat - 48 = m := by
  interval_cases m <;> decide

theorem toDigitsCore_spec :
    ∀ (fuel n : Nat) (acc : List Char), n < fuel →
      ∃ pre : List Char, Nat.toDigitsCore 10 fuel n acc = pre ++ acc ∧
        pre ≠ [] ∧ decDigitsVal pre = n := by
  intro fuel
  induction fuel with
  | zero => intro n acc h; omega
  | succ fuel ih =>
    intro n acc h
    simp only [Nat.toDigitsCore]
    by_cases h10 : n / 10 = 0
    · rw [if_pos h10]
      refine ⟨[Nat.digitChar (n % 10)], rfl, by simp, ?_⟩
      have hn10 : n < 10 := by omega
      unfold decDigitsVal
      simp only [List.foldl, Nat.zero_mul, Nat.zero_add]
      rw [Nat.mod_eq_of_lt hn10]
      exact digitChar_decode n hn10
    · rw [if_neg h10]
      have hlt : n / 10 < fuel := by omega
      obtain ⟨pre, heq, hne, hval⟩ :=
        ih (n / 10) (Nat.digitChar (n % 10) :: acc) hlt
      refine ⟨pre ++ [Nat.digitChar (n % 10)], ?_, by simp, ?_⟩
      · rw [heq, List.append_assoc]
        rfl
      · unfold decDigitsVal
        rw [List.foldl_append]
        unfold decDigitsVal at hval
        rw [hval]
        simp only [List.foldl]
        have hd : (Nat.digitChar (n % 10)).toNat - 48 = n % 10 :=
          digitChar_decode _ (Nat.mod_lt _ (by norm_num))
        omega

theorem natToString_data (n : Nat) :
    ∃ pre : List Char, (toString n).data = pre ∧ pre ≠ [] ∧
      decDigitsVal pre = n := by
  obtain ⟨pre, h1, h2, h3⟩ :=
    toDigitsCore_spec (n + 1) n [] (Nat.lt_succ_self n)
  refine ⟨pre, ?_, h2, h3⟩
  show (List.asString (Nat.toDigits 10 n)).data = pre
  have h0 : Nat.toDigits 10 n = pre := by
    show Nat.toDigitsCore 10 (n + 1) n [] = pre
    rw [h1, List.append_nil]
  rw [h0]
  rfl

theorem natToString_inj (m n : Nat) (h : toString m = toString n) : m = n := by
  obtain ⟨pm, hm1, _, hm3⟩ := natToString_data m
  obtain ⟨pn, hn1, _, hn3⟩ := natToString_data n
  have : pm = pn := by rw [← hm1, ← hn1, h]
  rw [← hm3, ← hn3, this]

theorem natToString_length_pos (n : Nat) : 1 ≤ (toString n).length := by
  obtain ⟨pre, h1, h2, _⟩ := natToString_data n
  show 1 ≤ (toString n).data.length
  rw [h1]
  cases pre with
  | nil => exact absurd rfl h2
  | cons c t => simp

theorem formatNames_length (f : String) (h : f ∈ formatNames) : f.length = 3 := by
  simp only [formatNames, List.mem_cons, List.not_mem_nil, or_false] at h
  rcases h with rfl | rfl | rfl <;> decide

theorem string_append_left_cancel (a s t : String) (h : a ++ s = a ++ t) :
    s = t := by
  have hd := congrArg String.data h
  simp only [String.data_append] at hd
  exact String.ext (List.append_cancel_left hd)

theorem string_append_inj_left (a b s t : String) (hlen : a.length = b.length)
    (h : a ++ s = b ++ t) : a = b := by
  have hd := congrArg String.data h
  simp only [String.data_append] at hd
  have hlen' : a.data.length = b.data.length := hlen
  exact String.ext (List.append_inj hd hlen').1

theorem count_take_lt (l : List String) (f : String) (j k : Nat)
    (hjk : j < k) (hk : k ≤ l.length) (hj : l.getD j "" = f) :
    ((l.take j).filter (fun g => g == f)).length <
      ((l.take k).filter (fun g => g == f)).length := by
  have hjl : j < l.length := lt_of_lt_of_le hjk hk
  have hsplit : l.take k = l.take j ++ (l.drop j).take (k - j) := by
    have hkj : k = j + (k - j) := by omega
    conv_lhs => rw [hkj]
    exact List.take_add l j (k - j)
  rw [hsplit, List.filter_append, List.length_append]
  have hdrop : (l.drop j).take (k - j) =
      l[j] :: (l.drop (j + 1)).take (k - j - 1) := by
    rw [List.drop_eq_getElem_cons hjl]
    have h1 : k - j = (k - j - 1) + 1 := by omega
    rw [h1, List.take_succ_cons]
    simp
  rw [hdrop, List.filter_cons]
  have hjf : (l[j] == f) = true := by
    rw [List.getD_eq_getElem l "" hjl] at hj
    simp [hj]
  rw [if_pos hjf]
  simp only [List.length_cons]
  omega

theorem count_two_of_two_pos (l : List String) (f : String) (j k : Nat)
    (hjk : j < k) (hk : k < l.length) (hj : l.getD j "" = f)
    (hkf : l.getD k "" = f) :
    2 ≤ (l.filter (fun g => g == f)).length := by
  have h1 := count_take_lt l f j k hjk (le_of_lt hk) hj
  have hsum : (l.filter (fun g => g == f)).length =
      ((l.take k).filter (fun g => g == f)).length +
      ((l.drop k).filter (fun g => g == f)).length := by
    conv_lhs => rw [← List.take_append_drop k l]
    rw [List.filter_append, List.length_append]
  have hd : l.drop k = l[k] :: l.drop (k + 1) := List.drop_eq_getElem_cons hk
  have hkf' : (l[k] == f) = true := by
    rw [List.getD_eq_getElem l "" hk] at hkf
    simp [hkf]
  rw [hsum, hd, List.filter_cons, if_pos hkf']
  simp only [List.length_cons]
  omega

theorem envKeySpec_ne (fmts : List String)
    (hf : ∀ f ∈ fmts, f ∈ formatNames) (j k : Nat) (hjk : j < k)
    (hk : k < fmts.length) : envKeySpec fmts j ≠ envKeySpec fmts k := by
  have hj : j < fmts.length := lt_trans hjk hk
  have hjmem : fmts.getD j "" ∈ formatNames := by
    rw [List.getD_eq_getElem _ _ hj]
    exact hf _ (List.getElem_mem hj)
  have hkmem : fmts.getD k "" ∈ formatNames := by
    rw [List.getD_eq_getElem _ _ hk]
    exact hf _ (List.getElem_mem hk)
  have hlj : (fmts.getD j "").length = 3 := formatNames_length _ hjmem
  have hlk : (fmts.getD k "").length = 3 := formatNames_length _ hkmem
  unfold envKeySpec
  intro hcontra
  split_ifs at hcontra with h1 h2 h2
  · have h2' : (fmts.filter (fun g => g == fmts.getD k "")).length = 1 := by
      simpa using h2
    have := count_two_of_two_pos fmts (fmts.getD k "") j k hjk hk
      (by rw [hcontra]) rfl
    omega
  · have hlen := congrArg String.length hcontra
    rw [String.length_append, hlj, hlk] at hlen
    have := natToString_length_pos
      (((fmts.take k).filter (fun g => g == fmts.getD k "")).length)
    omega
  · have hlen := congrArg String.length hcontra
    rw [String.length_append, hlj, hlk] at hlen
    have := natToString_length_pos
      (((fmts.take j).filter (fun g => g == fmts.getD j "")).length)
    omega
  · have hfjk : fmts.getD j "" = fmts.getD k "" :=
      string_append_inj_left _ _ _ _ (hlj.trans hlk.symm) hcontra
    rw [hfjk] at hcontra
    have hcancel := string_append_left_cancel _ _ _ hcontra
    have hij := natToString_inj _ _ hcancel
    have hlt := count_take_lt fmts (fmts.getD k "") j k hjk (le_of_lt hk) hfjk
    omega

theorem setKeyReplace_not_mem {α : Type} (l : List (String × α)) (k : String)
    (v : α) (h : k ∉ l.map Prod.fst) : setKeyReplace l k v = l ++ [(k, v)] := by
  induction l with
  | nil => rfl
  | cons hd t ih =>
    obtain ⟨k', w⟩ := hd
    simp only [List.map_cons, List.mem_cons, not_or] at h
    obtain ⟨h1, h2⟩ := h
    have hb : (k' == k) = false := by
      rw [beq_eq_false_iff_ne]
      exact fun hh => h1 hh.symm
    simp only [setKeyReplace, hb, Bool.false_eq_true, if_false, List.cons_append]
    rw [ih h2]

theorem getD_append_length {α : Type} (l1 : List α) (a : α) (l2 : List α)
    (d : α) : (l1 ++ a :: l2).getD l1.length d = a := by
  induction l1 with
  | nil => rfl
  | cons x t ih => simpa using ih

theorem count_fst_filter (items : List (String × JVal)) (f : String) :
    ((items.map Prod.fst).filter (fun g => g == f)).length =
      (items.filter (fun p => p.1 == f)).length := by
  rw [List.filter_map, List.length_map]
  rfl

theorem take_map_fst (done x : List (String × JVal)) :
    ((done ++ x).map Prod.fst).take done.length = done.map Prod.fst := by
  rw [List.map_append]
  have h : done.length = (done.map Prod.fst).length := (List.length_map _ _).symm
  rw [h, List.take_left]

theorem assembleLoop_eq_spec (items : List (String × JVal))
    (hf : ∀ p ∈ items, p.1 ∈ formatNames) :
    ∀ (todo done : List (String × JVal)) (idxs : List (String × Nat)),
      items = done ++ todo →
      (∀ g, ((idxs.lookup g).getD 0) =
        (done.filter (fun p => p.1 == g)).length) →
      assembleLoop (fun g => (items.filter (fun p => p.1 == g)).length) todo
          idxs (done.enum.map (fun p =>
            (envKeySpec (items.map Prod.fst) p.1, p.2.2))) =
        items.enum.map (fun p => (envKeySpec (items.map Prod.fst) p.1, p.2.2))
  | [], done, idxs, heq, hidx => by
    rw [assembleLoop, heq, List.append_nil]
  | (f, c) :: rest, done, idxs, heq, hidx => by
    have hkey : (if ((items.filter (fun p => p.1 == f)).length == 1) then f
        else f ++ toString ((done.filter (fun p => p.1 == f)).length)) =
        envKeySpec (items.map Prod.fst) done.length := by
      unfold envKeySpec
      have hgd : (items.map Prod.fst).getD done.length "" = f := by
        rw [heq, List.map_append, List.map_cons]
        have h := getD_append_length (done.map Prod.fst) f (rest.map Prod.fst) ""
        rw [List.length_map] at h
        exact h
      rw [hgd]
      have htake : (items.map Prod.fst).take done.length = done.map Prod.fst := by
        rw [heq]
        exact take_map_fst done _
      rw [htake, count_fst_filter done f, count_fst_filter items f]
    have hfresh : envKeySpec (items.map Prod.fst) done.length ∉
        (done.enum.map (fun p =>
          (envKeySpec (items.map Prod.fst) p.1, p.2.2))).map Prod.fst := by
      intro hq
      rw [List.map_map] at hq
      rcases List.mem_map.mp hq with ⟨p, hp, hpe⟩
      have hlt : p.1 < done.length := by
        have h0 := List.fst_lt_add_of_mem_enumFrom hp
        simpa using h0
      have hdl : done.length < (items.map Prod.fst).length := by
        rw [heq]
        simp
      exact envKeySpec_ne (items.map Prod.fst)
        (fun g hg => by
          rcases List.mem_map.mp hg with ⟨q, hq', rfl⟩
          exact hf q hq')
        p.1 done.length hlt hdl hpe
    have hidx' : ∀ g,
        (((setKeyReplace idxs f
            ((done.filter (fun p => p.1 == f)).length + 1)).lookup g).getD 0) =
        ((done ++ [(f, c)]).filter (fun p => p.1 == g)).length := by
      intro g
      by_cases hg : g = f
      · subst hg
        rw [lookup_setKeyReplace_self]
        rw [List.filter_append]
        simp [List.filter_cons]
      · rw [lookup_setKeyReplace_ne _ f g _ hg, hidx g]
        rw [List.filter_append, List.length_append]
        have hfg : (f == g) = false := by
          rw [beq_eq_false_iff_ne]
          exact fun hh => hg hh.symm
        simp [List.filter_cons, hfg]
    have henum : (done ++ [(f, c)]).enum.map
        (fun p => (envKeySpec (items.map Prod.fst) p.1, p.2.2)) =
        done.enum.map (fun p =>
          (envKeySpec (items.map Prod.fst) p.1, p.2.2)) ++
        [(envKeySpec (items.map Prod.fst) done.length, c)] := by
      rw [show (done ++ [(f, c)]).enum =
        done.enum ++ [(f, c)].enumFrom done.length from
          List.enum_append done [(f, c)]]
      rw [List.map_append]
      rfl
    rw [assembleLoop]
    rw [hidx f]
    rw [hkey]
    rw [setKeyReplace_not_mem _ _ _ hfresh]
    rw [← henum]
    exact assembleLoop_eq_spec items hf rest (done ++ [(f, c)])
      (setKeyReplace idxs f ((done.filter (fun p => p.1 == f)).length + 1))
      (by rw [heq]; simp) hidx'

/-- C4: for every ordered list of composed units whose formats are
among the three valid names, the environment assembly keys each
configuration by its bare format name when that format occurs exactly
once, and otherwise by the format name with the zero-based count of its
earlier occurrences appended, in declaration order. -/
theorem C4_environment_keys (items : List (String × JVal))
    (hf : ∀ p ∈ items, p.1 ∈ formatNames) :
    assembleEnvironments items = assembleEnvironmentsSpec items := by
  unfold assembleEnvironments assembleEnvironmentsSpec
  have h := assembleLoop_eq_spec items hf items [] [] rfl (fun g => rfl)
  simpa using h

/-- Witness for C4 at the claim's concrete input: formats
`[esm, esm, cjs]` assemble into environment keys `esm0`, `esm1`, `cjs`
in that order — not `esm`, `esm1`, `cjs`. -/
theorem C4_environment_keys_witness :
    (∀ p ∈ ([("esm", JVal.null), ("esm", JVal.bool true), ("cjs", JVal.null)] :
        List (String × JVal)), p.1 ∈ formatNames) ∧
    assembleEnvironments
        [("esm", JVal.null), ("esm", JVal.bool true), ("cjs", JVal.null)] =
      [("esm0", JVal.null), ("esm1", JVal.bool true), ("cjs", JVal.null)] := by
  refine ⟨by decide, ?_⟩
  rw [C4_environment_keys _ (by decide)]
  rfl

end Rslib
